import Mathlib

/-!
Shallow embedding of `src/fmg-get-fgt-revisions.py`, a script that walks a
FortiManager hierarchy (ADOMs, then devices, then configuration revisions),
filters revisions by an installation-time cutoff, and saves each revision
content as a `.conf` file grouped by ADOM directory.

The remote controller is modelled as an oracle (`Env`) giving the structured
outcome of each JSON-RPC call; the filesystem is an explicit record of
directories and (path, content) files.  Machine-level details (TLS, process
environment, the `config.env` startup check) are outside the embedded core,
which starts after startup succeeds.
-/

namespace FmgGetFgtRevisions

/-! ## Date-time parsing

`datetime.strptime(s, "%Y-%m-%d %H:%M:%S")` is modelled following the regex
semantics of CPython strptime: `%Y` matches exactly four digits, `%m` matches
`1[0-2]|0[1-9]|[1-9]`, `%d` matches `3[01]|[12]\d|0[1-9]|[1-9]`, `%H` matches
`2[0-3]|[0-1]\d|\d`, `%M` and `%S` match `[0-5]\d|\d`, literal separators must
match exactly, no input may remain, and the resulting components must form a
valid datetime (day within the month, year at least 1). -/

/-- One parsed calendar timestamp, component-wise. -/
structure DateTime where
  year : Nat
  month : Nat
  day : Nat
  hour : Nat
  minute : Nat
  second : Nat
  deriving DecidableEq, Repr

/-- Numeric value of a digit character (the caller checks `Char.isDigit`). -/
def digitVal (c : Char) : Nat := c.toNat - 48

/-- Matches exactly four digits (the regex CPython uses for `%Y`). -/
def matchYear : List Char → Option (Nat × List Char)
  | c1 :: c2 :: c3 :: c4 :: rest =>
    if c1.isDigit && c2.isDigit && c3.isDigit && c4.isDigit then
      some ((((digitVal c1 * 10 + digitVal c2) * 10 + digitVal c3) * 10 + digitVal c4), rest)
    else none
  | _ => none

/-- Matches a one- or two-digit field: a two-digit form is taken when its
value satisfies `valid2`, otherwise a single digit satisfying `valid1` is
taken (the greedy-alternation behaviour of the strptime field regexes). -/
def matchField (valid2 valid1 : Nat → Bool) : List Char → Option (Nat × List Char)
  | c1 :: c2 :: rest =>
    if c1.isDigit then
      if c2.isDigit && valid2 (digitVal c1 * 10 + digitVal c2) then
        some (digitVal c1 * 10 + digitVal c2, rest)
      else if valid1 (digitVal c1) then some (digitVal c1, c2 :: rest)
      else none
    else none
  | [c1] =>
    if c1.isDigit && valid1 (digitVal c1) then some (digitVal c1, []) else none
  | [] => none

/-- Matches the literal separator whose character code is `code`. -/
def matchLit (code : Nat) : List Char → Option (List Char)
  | c :: rest => if c.toNat == code then some rest else none
  | [] => none

/-- Month field `%m`: two digits in 1..12, or one digit 1..9. -/
def matchMonth : List Char → Option (Nat × List Char) :=
  matchField (fun v => 1 ≤ v && v ≤ 12) (fun v => 1 ≤ v && v ≤ 9)

/-- Day field `%d`: two digits in 1..31, or one digit 1..9. -/
def matchDay : List Char → Option (Nat × List Char) :=
  matchField (fun v => 1 ≤ v && v ≤ 31) (fun v => 1 ≤ v && v ≤ 9)

/-- Hour field `%H`: two digits in 0..23, or one digit 0..9. -/
def matchHour : List Char → Option (Nat × List Char) :=
  matchField (fun v => v ≤ 23) (fun _ => true)

/-- Minute/second fields `%M`/`%S`: two digits in 0..59, or one digit 0..9. -/
def matchMinSec : List Char → Option (Nat × List Char) :=
  matchField (fun v => v ≤ 59) (fun _ => true)

/-- Gregorian leap-year rule used by `datetime`. -/
def isLeap (y : Nat) : Bool := (y % 4 == 0 && y % 100 != 0) || y % 400 == 0

/-- Number of days in the given month of the given year. -/
def daysInMonth (y m : Nat) : Nat :=
  if m = 2 then (if isLeap y then 29 else 28)
  else if m = 4 ∨ m = 6 ∨ m = 9 ∨ m = 11 then 30
  else 31

/-- `datetime.strptime(s, "%Y-%m-%d %H:%M:%S")`: `some` on success, `none`
when Python raises `ValueError` (bad shape, leftover input, or an
out-of-range day for the month).  Character codes: 45 `-`, 32 space, 58 `:`. -/
def parseDateTime (s : String) : Option DateTime := do
  let (y, r1) ← matchYear s.data
  let r2 ← matchLit 45 r1
  let (m, r3) ← matchMonth r2
  let r4 ← matchLit 45 r3
  let (d, r5) ← matchDay r4
  let r6 ← matchLit 32 r5
  let (h, r7) ← matchHour r6
  let r8 ← matchLit 58 r7
  let (mi, r9) ← matchMinSec r8
  let r10 ← matchLit 58 r9
  let (sec, r11) ← matchMinSec r10
  if r11 = [] ∧ 1 ≤ y ∧ d ≤ daysInMonth y m then
    some ⟨y, m, d, h, mi, sec⟩
  else none

/-- Linearization of a datetime.  For components in their calendar ranges
(month ≤ 12 < 16, day ≤ 31 < 32, hour ≤ 23 < 32, minute and second ≤ 59 < 64)
comparing keys agrees with the component-wise lexicographic comparison that
Python uses on `datetime` values. -/
def DateTime.toKey (t : DateTime) : Nat :=
  ((((t.year * 16 + t.month) * 32 + t.day) * 32 + t.hour) * 64 + t.minute) * 64 + t.second

/-- `adom_filter_datetime = datetime.strptime("2025-03-03", "%Y-%m-%d")`:
midnight on the configured start date. -/
def adomFilterDatetime : DateTime := ⟨2025, 3, 3, 0, 0, 0⟩

/-! ## Revision metadata and the filtering loop of `get_config_revisions` -/

/-- One entry of the `revinfo` list returned by
`/deployment/get/device/revision`.  `instime = none` models a JSON object
with no `"instime"` key; `revision` models the `"revision"` key read by
`main`. -/
structure RevEntry where
  revision : Nat
  instime : Option String
  deriving DecidableEq, Repr

/-- The filtering loop of `get_config_revisions` (lines 117-126): walks
`revinfo`, skips entries without an `"instime"` key, collects entries whose
parsed time is at least `adom_filter_datetime`, and records entries whose
`"instime"` fails to parse (the printed date-parsing error) in the second
component. -/
def filterRevinfo : List RevEntry → List RevEntry × List RevEntry
  | [] => ([], [])
  | r :: rest =>
    let p := filterRevinfo rest
    match r.instime with
    | none => p
    | some s =>
      match parseDateTime s with
      | none => (p.1, r :: p.2)
      | some t =>
        if adomFilterDatetime.toKey ≤ t.toKey then (r :: p.1, p.2) else p

/-! ## The RPC boundary

`send_request` (lines 57-80) posts one JSON-RPC request and returns
`response_data["result"]` when the body decodes as JSON and has a
`"result"` key, and `None` otherwise (printing the error).  The `try`
block covers only `response.json()` (lines 70-78); `requests.post` at
line 68 is outside every exception handler, so a network-level transport
failure (connection refused or reset, timeout) raises an exception that
propagates uncaught through the callers and aborts the whole run.  The
transport is modelled as the list of outcomes the network would give to
successive attempts; the code consults only the first one. -/

/-- Outcome of one HTTP attempt: the attempt itself raises before any body
is received (`requests.post` raising a connection error or timeout), a
body is received but fails to decode as JSON, or a decoded body whose
`"result"` key holds `res` (`none` when absent). -/
inductive RawResp (α : Type) where
  | raised
  | badJson
  | jsonOk (res : Option α)
  deriving DecidableEq, Repr

/-- What one call of `send_request` does at the Python level: return a
value (possibly `None`), or raise an exception that its caller does not
catch. -/
inductive CallOutcome (α : Type) where
  | raised
  | returned (res : Option α)
  deriving DecidableEq, Repr

/-- `send_request`: issues exactly one attempt (the head of the outcome
oracle).  A raising attempt propagates as an uncaught exception; a decode
failure or a missing `"result"` key is caught or tested and returns
`none`. -/
def sendRequest {α : Type} : List (RawResp α) → CallOutcome α
  | [] => .returned none
  | r :: _ =>
    match r with
    | .raised => .raised
    | .badJson => .returned none
    | .jsonOk res => .returned res

/-- Modelled from the spec: the RPC Client of the spec retries transient
failures (including network-level ones) with bounded backoff, up to 3
attempts, returning the first successful `"result"`; exhausting the
attempts surfaces the failure to the caller as an error value.  This
definition exists only to state what the spec describes, for comparison
with `sendRequest` as the code has it. -/
def sendRequestSpecRetry {α : Type} (rs : List (RawResp α)) : Option α :=
  ((rs.take 3).filterMap fun r =>
    match r with
    | .jsonOk (some v) => some v
    | _ => none).head?

/-! ## The controller oracle and the filesystem -/

/-- Classification of a failed call that still arrives as an HTTP
response, as the spec taxonomy names them.  The code never inspects the
kind: every such failure takes the same printed-and-absorbed path
(`requests` does not raise on HTTP status codes, so an auth or 5xx
response reaches `send_request` as a body). -/
inductive RpcError where
  | auth
  | transient
  | protocol
  deriving DecidableEq, Repr

/-- Structured outcome of one remote call.  `err` is a received response
without usable data (no `"result"`, no `"data"`, undecodable body): the
code prints and absorbs it.  `raised` is a network-level transport
failure: `requests.post` raises outside every handler (corresponding to
the `CallOutcome.raised` path of `sendRequest`), the exception propagates
uncaught, and the run aborts. -/
inductive RpcResult (α : Type) where
  | ok (val : α)
  | err (e : RpcError)
  | raised
  deriving DecidableEq, Repr

/-- The remote controller for one run: the outcome of each call the script
makes.  For `checkout`, `ok none` models a response whose `"data"` lacks
the `"content"` key. -/
structure Env where
  adoms : RpcResult (List String)
  devices : String → RpcResult (List String)
  revinfo : String → String → RpcResult (List RevEntry)
  checkout : String → String → Nat → RpcResult (Option String)

/-- The filesystem under `output_dir`: created directories and a map from
file path to written content. -/
structure FS where
  dirs : List String
  files : List (String × String)
  deriving DecidableEq, Repr

/-- The empty output tree. -/
def FS.empty : FS := ⟨[], []⟩

/-- First value stored under path `p`, if any. -/
def lookupEntry : List (String × String) → String → Option String
  | [], _ => none
  | e :: rest, p => if e.1 == p then some e.2 else lookupEntry rest p

/-- Content of the file at `p`, if present. -/
def FS.lookupFile (fs : FS) (p : String) : Option String :=
  lookupEntry fs.files p

/-- Overwrite-or-append a (path, content) entry, as `open(path, "w")`
followed by a full write behaves. -/
def setEntry : List (String × String) → String → String → List (String × String)
  | [], p, c => [(p, c)]
  | e :: rest, p, c => if e.1 == p then (p, c) :: rest else e :: setEntry rest p c

/-- Write `c` to the file at `p`. -/
def FS.setFile (fs : FS) (p c : String) : FS :=
  { fs with files := setEntry fs.files p c }

/-- `os.makedirs(d, exist_ok=True)`: creating an existing directory is
success and changes nothing. -/
def FS.addDir (fs : FS) (d : String) : FS :=
  if fs.dirs.contains d then fs else { fs with dirs := d :: fs.dirs }

/-- The ADOM grouping directory (line 151). -/
def adomDir (adomName : String) : String :=
  "config_revisions/" ++ adomName

/-- The artifact path (lines 160-161): `<output_dir>/<adom>/<device>_<timestamp>.conf`. -/
def filePath (adomName deviceName timestamp : String) : String :=
  adomDir adomName ++ "/" ++ deviceName ++ "_" ++ timestamp ++ ".conf"

/-! ## The walk: `get_adoms`, `get_devices`, `get_config_revisions`,
`download_config`, `main` -/

/-- `get_adoms`: the list of ADOM names, or `[]` when the call returns an
unusable response (printed and absorbed).  The `raised` case is handled
by the run itself (`runMain`), which aborts before this value is used;
the `[]` here is a total-function placeholder for that unreached case. -/
def getAdoms (env : Env) : List String :=
  match env.adoms with
  | .ok l => l
  | .err _ => []
  | .raised => []

/-- `get_devices`: the device names of one ADOM, or `[]` on an absorbed
failure; a raised call is handled (as an abort) by `runAdom`. -/
def getDevices (env : Env) (adomName : String) : List String :=
  match env.devices adomName with
  | .ok l => l
  | .err _ => []
  | .raised => []

/-- `get_config_revisions`: fetches `revinfo` and filters it; an absorbed
failure yields no revisions and no recorded parse errors, and a raised
call is handled (as an abort) by `runDevice`.  First component: the
filtered revisions returned to `main`; second: the entries whose
`"instime"` failed to parse (printed, lines 124-125). -/
def getConfigRevisions (env : Env) (adomName deviceName : String) :
    List RevEntry × List RevEntry :=
  match env.revinfo adomName deviceName with
  | .ok l => filterRevinfo l
  | .err _ => ([], [])
  | .raised => ([], [])

/-- `download_config` (lines 134-172): checks out one revision; when the
result carries `"data"` with a `"content"` key, creates the ADOM directory
and writes the content to the artifact path; on an absorbed failure the
filesystem is untouched (only an error is printed).  A raised checkout
also leaves the filesystem untouched — the exception occurs inside
`send_request`, before `os.makedirs` and before the file is opened — but
it additionally aborts the run, which `downloadLoop` models. -/
def downloadConfig (env : Env) (adomName deviceName : String) (revisionId : Nat)
    (timestamp : String) (fs : FS) : FS :=
  match env.checkout adomName deviceName revisionId with
  | .ok (some content) =>
    (fs.addDir (adomDir adomName)).setFile (filePath adomName deviceName timestamp) content
  | .ok none => fs
  | .err _ => fs
  | .raised => fs

/-- Python `str.replace` specialised to the single-character patterns the
script uses: every occurrence of the character with code `fromCode` becomes
the character with code `toCode`. -/
def replaceSep (fromCode toCode : Nat) (s : String) : String :=
  ⟨s.data.map fun c => if c.toNat == fromCode then Char.ofNat toCode else c⟩

/-- Line 186: `timestamp = rev["instime"].replace(":", "-").replace(" ", "_")`.
Character codes: 58 `:`, 45 `-`, 32 space, 95 underscore.  Filtered
revisions always carry an `"instime"` string, so the default is never used
for entries reaching `main`. -/
def tsOf (r : RevEntry) : String :=
  replaceSep 32 95 (replaceSep 58 45 (r.instime.getD ""))

/-- Observable trace of one run of `main`: the (adom, device) pairs whose
revision listing completed, the checkout requests issued (in order),
`all_revisions` as accumulated by `main`, the final filesystem, and
whether an uncaught exception aborted the run.  `raised = true` means a
`requests.post` call raised: the exception propagates out of `main` and
CPython exits with a nonzero status after printing the traceback;
everything already written stays on disk. -/
structure RunTrace where
  visited : List (String × String)
  fetches : List (String × String × Nat)
  allRevisions : List RevEntry
  fs : FS
  raised : Bool
  deriving DecidableEq, Repr

/-- The download loop of `main` over one device (lines 184-187): each
filtered revision in order triggers `download_config`, whose checkout
request is always issued.  A raised checkout counts as an issued request
(the POST was attempted), leaves the filesystem as it was, and stops the
loop: the exception propagates.  Returns (requests issued, final
filesystem, raised flag). -/
def downloadLoop (env : Env) (adomName deviceName : String) :
    List RevEntry → FS → List (String × String × Nat) × FS × Bool
  | [], fs => ([], fs, false)
  | r :: rest, fs =>
    match env.checkout adomName deviceName r.revision with
    | .raised => ([(adomName, deviceName, r.revision)], fs, true)
    | _ =>
      let out := downloadLoop env adomName deviceName rest
        (downloadConfig env adomName deviceName r.revision (tsOf r) fs)
      ((adomName, deviceName, r.revision) :: out.1, out.2.1, out.2.2)

/-- The inner loop body of `main` for one device (lines 180-187): list and
filter its revisions, then download each one in order.  When the trace is
already aborted nothing further happens; a raised `revinfo` call aborts
before the device is visited. -/
def runDevice (env : Env) (adomName : String) (t : RunTrace) (deviceName : String) :
    RunTrace :=
  if t.raised then t
  else
    match env.revinfo adomName deviceName with
    | .raised => { t with raised := true }
    | _ =>
      let revs := (getConfigRevisions env adomName deviceName).1
      let out := downloadLoop env adomName deviceName revs t.fs
      { visited := t.visited ++ [(adomName, deviceName)]
        fetches := t.fetches ++ out.1
        allRevisions := t.allRevisions ++ revs
        fs := out.2.1
        raised := out.2.2 }

/-- The loop body of `main` for one ADOM (lines 178-187): a raised
device-listing call aborts; otherwise every listed device is processed in
order. -/
def runAdom (env : Env) (t : RunTrace) (adomName : String) : RunTrace :=
  if t.raised then t
  else
    match env.devices adomName with
    | .raised => { t with raised := true }
    | _ => (getDevices env adomName).foldl (runDevice env adomName) t

/-- `main` (lines 175-190), started on filesystem `fs0`.  A raised ADOM
listing aborts immediately; otherwise the nested loops run, aborting at
the first raising call, if any. -/
def runMain (env : Env) (fs0 : FS) : RunTrace :=
  match env.adoms with
  | .raised => ⟨[], [], [], fs0, true⟩
  | _ => (getAdoms env).foldl (runAdom env) ⟨[], [], [], fs0, false⟩

/-- Process exit status on the code path where `main` returns, i.e. when
no call of the run raises: the script never calls `exit` after startup
and absorbs every received-response failure by printing, so the
interpreter exits 0 (lines 175-194).  On the raising path `main` does not
return: the uncaught exception makes CPython exit nonzero instead, which
`RunTrace.raised` records. -/
def runExitCode (_env : Env) : Nat := 0

/-! ## Closed forms of the run trace

`main` threads its accumulators through nested loops; the following
definitions give each observable of the run in closed form, per device
and sequenced with abort-truncation, and the lemmas below prove the loop
equal to them. -/

/-- The filtered revisions of one device, as `main` receives them. -/
def deviceRevs (env : Env) (adomName deviceName : String) : List RevEntry :=
  (getConfigRevisions env adomName deviceName).1

/-- The checkout requests the download loop issues over a revision list:
one per revision, stopping after (and including) the first raising
checkout. -/
def loopFetches (env : Env) (adomName deviceName : String) :
    List RevEntry → List (String × String × Nat)
  | [] => []
  | r :: rest =>
    match env.checkout adomName deviceName r.revision with
    | .raised => [(adomName, deviceName, r.revision)]
    | _ => (adomName, deviceName, r.revision) :: loopFetches env adomName deviceName rest

/-- The (path, content) writes the download loop performs over a revision
list: one per revision whose checkout returned `"data"` with a
`"content"` key, stopping at the first raising checkout. -/
def loopWrites (env : Env) (adomName deviceName : String) :
    List RevEntry → List (String × String)
  | [] => []
  | r :: rest =>
    match env.checkout adomName deviceName r.revision with
    | .raised => []
    | .ok (some c) =>
      (filePath adomName deviceName (tsOf r), c) :: loopWrites env adomName deviceName rest
    | _ => loopWrites env adomName deviceName rest

/-- Whether the download loop over a revision list hits a raising
checkout. -/
def loopRaises (env : Env) (adomName deviceName : String) : List RevEntry → Bool
  | [] => false
  | r :: rest =>
    match env.checkout adomName deviceName r.revision with
    | .raised => true
    | _ => loopRaises env adomName deviceName rest

/-- The checkout requests one device contributes. -/
def deviceFetches (env : Env) (adomName deviceName : String) :
    List (String × String × Nat) :=
  loopFetches env adomName deviceName (deviceRevs env adomName deviceName)

/-- The (path, content) writes one device contributes. -/
def deviceWriteList (env : Env) (adomName deviceName : String) :
    List (String × String) :=
  loopWrites env adomName deviceName (deviceRevs env adomName deviceName)

/-- What one node of the walk adds to the run trace: visited pairs,
checkout requests, revisions handed to `main`, file writes, and whether
it ends in a raised exception. -/
structure Contrib where
  visited : List (String × String)
  fetches : List (String × String × Nat)
  revs : List RevEntry
  writes : List (String × String)
  raised : Bool
  deriving DecidableEq, Repr

/-- Sequencing of contributions: once a node raises, nothing after it
contributes. -/
def seqContrib (c1 c2 : Contrib) : Contrib :=
  if c1.raised then c1
  else
    ⟨c1.visited ++ c2.visited, c1.fetches ++ c2.fetches, c1.revs ++ c2.revs,
      c1.writes ++ c2.writes, c2.raised⟩

/-- The contribution of one device: a raised listing call contributes
nothing and aborts; otherwise the device is visited and its download loop
runs (possibly itself raising part-way). -/
def deviceContrib (env : Env) (adomName deviceName : String) : Contrib :=
  match env.revinfo adomName deviceName with
  | .raised => ⟨[], [], [], [], true⟩
  | _ =>
    ⟨[(adomName, deviceName)], deviceFetches env adomName deviceName,
      deviceRevs env adomName deviceName, deviceWriteList env adomName deviceName,
      loopRaises env adomName deviceName (deviceRevs env adomName deviceName)⟩

/-- The sequenced contribution of a device list. -/
def devicesContrib (env : Env) (adomName : String) : List String → Contrib
  | [] => ⟨[], [], [], [], false⟩
  | d :: ds => seqContrib (deviceContrib env adomName d) (devicesContrib env adomName ds)

/-- The contribution of one ADOM: a raised device-listing call aborts;
otherwise its devices contribute in order. -/
def adomContrib (env : Env) (adomName : String) : Contrib :=
  match env.devices adomName with
  | .raised => ⟨[], [], [], [], true⟩
  | _ => devicesContrib env adomName (getDevices env adomName)

/-- The sequenced contribution of an ADOM list. -/
def adomsContrib (env : Env) : List String → Contrib
  | [] => ⟨[], [], [], [], false⟩
  | a :: as => seqContrib (adomContrib env a) (adomsContrib env as)

/-- The whole run as one contribution: a raised ADOM listing aborts at
once; otherwise the ADOMs contribute in order, truncated at the first
raising call. -/
def mainContrib (env : Env) : Contrib :=
  match env.adoms with
  | .raised => ⟨[], [], [], [], true⟩
  | _ => adomsContrib env (getAdoms env)

/-- Every (adom, device) pair the run lists revisions for, in order,
truncated at the first raising call. -/
def mainVisited (env : Env) : List (String × String) :=
  (mainContrib env).visited

/-- Apply a sequence of (path, content) writes to a file table. -/
def applySets (ws : List (String × String)) (l : List (String × String)) :
    List (String × String) :=
  ws.foldl (fun acc w => setEntry acc w.1 w.2) l

/-- The last content written to path `p` by the write sequence, if any. -/
def findLastW : List (String × String) → String → Option String
  | [], _ => none
  | w :: rest, p =>
    match findLastW rest p with
    | some c => some c
    | none => if w.1 == p then some w.2 else none

/-! ## Crash model for the write path

`download_config` saves the artifact with `open(file_path, "w")` followed
by `f.write(config_data)` (lines 163-165).  Opening with mode `w`
creates or truncates the file at the final path before any data is
written, so a crash between the open and the completed write leaves the
final path populated with truncated content. -/

/-- The filesystem state visible if the process crashes between
`open(file_path, "w")` and the completion of `f.write(config_data)`:
the directory exists and the artifact path holds the empty (truncated)
content.  `none` when the write path is not reached (failed checkout or
missing `"content"` key). -/
def downloadMidWriteState (env : Env) (adomName deviceName : String)
    (revisionId : Nat) (timestamp : String) (fs : FS) : Option FS :=
  match env.checkout adomName deviceName revisionId with
  | .ok (some _) =>
    some ((fs.addDir (adomDir adomName)).setFile
      (filePath adomName deviceName timestamp) "")
  | _ => none

/-! ## Concrete controllers used to exercise the claims -/

/-- A revision installed after the cutoff date. -/
def revAfterCutoff : RevEntry := ⟨1, some "2025-03-05 00:00:00"⟩

/-- A revision installed before the cutoff date. -/
def revBeforeCutoff : RevEntry := ⟨2, some "2025-03-01 00:00:00"⟩

/-- A revision whose `"instime"` does not parse. -/
def revBadTime : RevEntry := ⟨3, some "garbage"⟩

/-- A revision with no `"instime"` key. -/
def revNoTime : RevEntry := ⟨4, none⟩

/-- One ADOM, one device, one qualifying revision, checkout succeeds. -/
def envOne : Env :=
  { adoms := .ok ["rootA"]
    devices := fun _ => .ok ["fgt1"]
    revinfo := fun _ _ => .ok [revAfterCutoff]
    checkout := fun _ _ _ => .ok (some "cfg-content") }

/-- Device listing of ADOM `A` fails with an authentication error while
ADOM `B` works normally. -/
def envAuthFail : Env :=
  { adoms := .ok ["A", "B"]
    devices := fun a => if a = "A" then .err .auth else .ok ["fgt"]
    revinfo := fun _ _ => .ok [revAfterCutoff]
    checkout := fun _ _ _ => .ok (some "cfg") }

/-- Two ADOMs with two devices each, all calls successful. -/
def envTwoByTwo : Env :=
  { adoms := .ok ["A", "B"]
    devices := fun _ => .ok ["d1", "d2"]
    revinfo := fun _ _ => .ok [revAfterCutoff]
    checkout := fun _ _ _ => .ok (some "c") }

/-- `envTwoByTwo` with a response-level transport failure (a received but
unusable response) on the revision listing of device `d1` of ADOM `A`
only. -/
def envTwoByTwoFail : Env :=
  { envTwoByTwo with
    revinfo := fun a d =>
      if a = "A" ∧ d = "d1" then .err .transient else envTwoByTwo.revinfo a d }

/-- `envTwoByTwo` with a network-level transport failure (`requests.post`
raising) on the revision listing of device `d1` of ADOM `A` only. -/
def envRaiseListing : Env :=
  { envTwoByTwo with
    revinfo := fun a d =>
      if a = "A" ∧ d = "d1" then .raised else envTwoByTwo.revinfo a d }

/-- One device whose `revinfo` lists the same revision entry twice. -/
def envDup : Env :=
  { adoms := .ok ["A"]
    devices := fun _ => .ok ["fgt"]
    revinfo := fun _ _ => .ok [⟨7, some "2025-03-05 10:00:00"⟩, ⟨7, some "2025-03-05 10:00:00"⟩]
    checkout := fun _ _ _ => .ok (some "dup-cfg") }

/-- One device with one unparsable-timestamp revision next to two
parsable ones (one before, one after the cutoff). -/
def envMixed : Env :=
  { adoms := .ok ["A"]
    devices := fun _ => .ok ["fgt"]
    revinfo := fun _ _ => .ok [revBadTime, revBeforeCutoff, revAfterCutoff, revNoTime]
    checkout := fun _ _ _ => .ok (some "cfg") }

/-- Checkout responses carry `"data"` with no `"content"` key. -/
def envNoContent : Env :=
  { adoms := .ok ["A"]
    devices := fun _ => .ok ["fgt"]
    revinfo := fun _ _ => .ok [revAfterCutoff]
    checkout := fun _ _ _ => .ok none }

/-! ## File-table lemmas -/

/-- Looking up after a write: the written path returns the new content,
every other path is untouched. -/
theorem lookupEntry_setEntry (l : List (String × String)) (p c q : String) :
    lookupEntry (setEntry l p c) q = if p = q then some c else lookupEntry l q := by
  induction l with
  | nil =>
    by_cases h : p = q <;> simp [setEntry, lookupEntry, h]
  | cons e rest ih =>
    by_cases h1 : e.1 = p
    · by_cases h2 : p = q <;> simp [setEntry, lookupEntry, h1, h2]
    · by_cases h2 : e.1 = q <;> by_cases h3 : p = q <;>
        simp_all [setEntry, lookupEntry]

/-- Unfolding one write of a write sequence. -/
theorem applySets_cons (w : String × String) (ws : List (String × String))
    (l : List (String × String)) :
    applySets (w :: ws) l = applySets ws (setEntry l w.1 w.2) := rfl

/-- A write sequence determines every path it touches; paths it never
writes keep their prior content. -/
theorem lookupEntry_applySets (ws : List (String × String)) :
    ∀ l q, lookupEntry (applySets ws l) q =
      match findLastW ws q with
      | some c => some c
      | none => lookupEntry l q := by
  induction ws with
  | nil => intro l q; simp [applySets, findLastW]
  | cons w ws ih =>
    intro l q
    rw [applySets_cons, ih]
    by_cases hw : w.1 = q
    · cases hlast : findLastW ws q <;>
        simp [findLastW, hlast, lookupEntry_setEntry, hw]
    · cases hlast : findLastW ws q <;>
        simp [findLastW, hlast, lookupEntry_setEntry, hw]

/-! ## Case equations and membership facts for `filterRevinfo` -/

/-- An entry with no `"instime"` key changes nothing. -/
theorem filterRevinfo_cons_none {r : RevEntry} (rest : List RevEntry)
    (h : r.instime = none) : filterRevinfo (r :: rest) = filterRevinfo rest := by
  simp [filterRevinfo, h]

/-- An entry whose `"instime"` fails to parse goes to the error log. -/
theorem filterRevinfo_cons_fail {r : RevEntry} {s : String} (rest : List RevEntry)
    (h : r.instime = some s) (hp : parseDateTime s = none) :
    filterRevinfo (r :: rest) = ((filterRevinfo rest).1, r :: (filterRevinfo rest).2) := by
  simp [filterRevinfo, h, hp]

/-- An entry at or after the cutoff is kept. -/
theorem filterRevinfo_cons_keep {r : RevEntry} {s : String} {t : DateTime}
    (rest : List RevEntry) (h : r.instime = some s) (hp : parseDateTime s = some t)
    (hk : adomFilterDatetime.toKey ≤ t.toKey) :
    filterRevinfo (r :: rest) = (r :: (filterRevinfo rest).1, (filterRevinfo rest).2) := by
  simp [filterRevinfo, h, hp, hk]

/-- An entry before the cutoff is dropped. -/
theorem filterRevinfo_cons_drop {r : RevEntry} {s : String} {t : DateTime}
    (rest : List RevEntry) (h : r.instime = some s) (hp : parseDateTime s = some t)
    (hk : ¬ adomFilterDatetime.toKey ≤ t.toKey) :
    filterRevinfo (r :: rest) = filterRevinfo rest := by
  simp [filterRevinfo, h, hp, hk]

/-- Every kept revision has an `"instime"` that parses to a time at or
after the cutoff. -/
theorem mem_filterRevinfo_fst {l : List RevEntry} {r : RevEntry}
    (h : r ∈ (filterRevinfo l).1) :
    ∃ s t, r.instime = some s ∧ parseDateTime s = some t ∧
      adomFilterDatetime.toKey ≤ t.toKey := by
  induction l with
  | nil => simp [filterRevinfo] at h
  | cons r0 rest ih =>
    cases hi : r0.instime with
    | none => rw [filterRevinfo_cons_none rest hi] at h; exact ih h
    | some s =>
      cases hp : parseDateTime s with
      | none => rw [filterRevinfo_cons_fail rest hi hp] at h; exact ih h
      | some t =>
        by_cases hk : adomFilterDatetime.toKey ≤ t.toKey
        · rw [filterRevinfo_cons_keep rest hi hp hk] at h
          rcases List.mem_cons.mp h with h0 | h0
          · exact ⟨s, t, h0 ▸ hi, hp, hk⟩
          · exact ih h0
        · rw [filterRevinfo_cons_drop rest hi hp hk] at h; exact ih h

/-- Every logged revision has an `"instime"` that fails to parse. -/
theorem mem_filterRevinfo_snd {l : List RevEntry} {r : RevEntry}
    (h : r ∈ (filterRevinfo l).2) :
    ∃ s, r.instime = some s ∧ parseDateTime s = none := by
  induction l with
  | nil => simp [filterRevinfo] at h
  | cons r0 rest ih =>
    cases hi : r0.instime with
    | none => rw [filterRevinfo_cons_none rest hi] at h; exact ih h
    | some s =>
      cases hp : parseDateTime s with
      | none =>
        rw [filterRevinfo_cons_fail rest hi hp] at h
        rcases List.mem_cons.mp h with h0 | h0
        · exact ⟨s, h0 ▸ hi, hp⟩
        · exact ih h0
      | some t =>
        by_cases hk : adomFilterDatetime.toKey ≤ t.toKey
        · rw [filterRevinfo_cons_keep rest hi hp hk] at h; exact ih h
        · rw [filterRevinfo_cons_drop rest hi hp hk] at h; exact ih h

/-- A revision at or after the cutoff is kept whenever it occurs in the
input list. -/
theorem kept_mem_filterRevinfo {l : List RevEntry} {r : RevEntry} {s : String}
    {t : DateTime} (hmem : r ∈ l) (hs : r.instime = some s)
    (hp : parseDateTime s = some t) (hk : adomFilterDatetime.toKey ≤ t.toKey) :
    r ∈ (filterRevinfo l).1 := by
  induction l with
  | nil => simp at hmem
  | cons r0 rest ih =>
    rcases List.mem_cons.mp hmem with h0 | h0
    · subst h0
      rw [filterRevinfo_cons_keep rest hs hp hk]
      exact List.mem_cons_self _ _
    · have hr := ih h0
      cases hi : r0.instime with
      | none => rw [filterRevinfo_cons_none rest hi]; exact hr
      | some s0 =>
        cases hp0 : parseDateTime s0 with
        | none => rw [filterRevinfo_cons_fail rest hi hp0]; exact hr
        | some t0 =>
          by_cases hk0 : adomFilterDatetime.toKey ≤ t0.toKey
          · rw [filterRevinfo_cons_keep rest hi hp0 hk0]
            exact List.mem_cons_of_mem _ hr
          · rw [filterRevinfo_cons_drop rest hi hp0 hk0]; exact hr

/-- A revision whose `"instime"` fails to parse is logged whenever it
occurs in the input list. -/
theorem failed_mem_filterRevinfo {l : List RevEntry} {r : RevEntry} {s : String}
    (hmem : r ∈ l) (hs : r.instime = some s) (hp : parseDateTime s = none) :
    r ∈ (filterRevinfo l).2 := by
  induction l with
  | nil => simp at hmem
  | cons r0 rest ih =>
    rcases List.mem_cons.mp hmem with h0 | h0
    · subst h0
      rw [filterRevinfo_cons_fail rest hs hp]
      exact List.mem_cons_self _ _
    · have hr := ih h0
      cases hi : r0.instime with
      | none => rw [filterRevinfo_cons_none rest hi]; exact hr
      | some s0 =>
        cases hp0 : parseDateTime s0 with
        | none =>
          rw [filterRevinfo_cons_fail rest hi hp0]
          exact List.mem_cons_of_mem _ hr
        | some t0 =>
          by_cases hk0 : adomFilterDatetime.toKey ≤ t0.toKey
          · rw [filterRevinfo_cons_keep rest hi hp0 hk0]; exact hr
          · rw [filterRevinfo_cons_drop rest hi hp0 hk0]; exact hr

/-- Lift of `mem_filterRevinfo_fst` through `getConfigRevisions`. -/
theorem mem_getConfigRevisions_fst {env : Env} {a d : String} {r : RevEntry}
    (h : r ∈ (getConfigRevisions env a d).1) :
    ∃ s t, r.instime = some s ∧ parseDateTime s = some t ∧
      adomFilterDatetime.toKey ≤ t.toKey := by
  unfold getConfigRevisions at h
  cases henv : env.revinfo a d with
  | ok l => rw [henv] at h; exact mem_filterRevinfo_fst h
  | err e => rw [henv] at h; simp at h
  | raised => rw [henv] at h; simp at h

/-- Lift of `mem_filterRevinfo_snd` through `getConfigRevisions`. -/
theorem mem_getConfigRevisions_snd {env : Env} {a d : String} {r : RevEntry}
    (h : r ∈ (getConfigRevisions env a d).2) :
    ∃ s, r.instime = some s ∧ parseDateTime s = none := by
  unfold getConfigRevisions at h
  cases henv : env.revinfo a d with
  | ok l => rw [henv] at h; exact mem_filterRevinfo_snd h
  | err e => rw [henv] at h; simp at h
  | raised => rw [henv] at h; simp at h

/-! ## The nested loops of `main` in closed form -/

/-- Applying a concatenation of write sequences. -/
theorem applySets_append (ws1 ws2 : List (String × String))
    (l : List (String × String)) :
    applySets (ws1 ++ ws2) l = applySets ws2 (applySets ws1 l) :=
  List.foldl_append ..

/-- The file part of `download_config`: a single conditional write. -/
theorem downloadConfig_files (env : Env) (a d : String) (rid : Nat) (ts : String)
    (fs : FS) :
    (downloadConfig env a d rid ts fs).files =
      match env.checkout a d rid with
      | .ok (some c) => setEntry fs.files (filePath a d ts) c
      | _ => fs.files := by
  cases h : env.checkout a d rid with
  | ok v =>
    cases v with
    | none => simp [downloadConfig, h]
    | some c =>
      simp only [downloadConfig, h, FS.setFile, FS.addDir]
      split <;> rfl
  | err e => simp [downloadConfig, h]
  | raised => simp [downloadConfig, h]

/-- The requests the download loop issues. -/
theorem downloadLoop_fetches (env : Env) (a d : String) :
    ∀ (revs : List RevEntry) (fs : FS),
    (downloadLoop env a d revs fs).1 = loopFetches env a d revs := by
  intro revs
  induction revs with
  | nil => intro fs; rfl
  | cons r rest ih =>
    intro fs
    cases h : env.checkout a d r.revision with
    | ok v => simp [downloadLoop, loopFetches, h, ih]
    | err e => simp [downloadLoop, loopFetches, h, ih]
    | raised => simp [downloadLoop, loopFetches, h]

/-- The writes the download loop performs. -/
theorem downloadLoop_files (env : Env) (a d : String) :
    ∀ (revs : List RevEntry) (fs : FS),
    (downloadLoop env a d revs fs).2.1.files =
      applySets (loopWrites env a d revs) fs.files := by
  intro revs
  induction revs with
  | nil => intro fs; simp [downloadLoop, loopWrites, applySets]
  | cons r rest ih =>
    intro fs
    cases h : env.checkout a d r.revision with
    | ok v =>
      cases v with
      | none =>
        have hf : (downloadConfig env a d r.revision (tsOf r) fs).files = fs.files := by
          rw [downloadConfig_files env a d r.revision (tsOf r) fs, h]
        simp [downloadLoop, loopWrites, h, ih, hf]
      | some c =>
        have hf : (downloadConfig env a d r.revision (tsOf r) fs).files =
            setEntry fs.files (filePath a d (tsOf r)) c := by
          rw [downloadConfig_files env a d r.revision (tsOf r) fs, h]
        calc (downloadLoop env a d (r :: rest) fs).2.1.files
            = (downloadLoop env a d rest
                (downloadConfig env a d r.revision (tsOf r) fs)).2.1.files := by
              simp [downloadLoop, h]
          _ = applySets (loopWrites env a d rest)
                (downloadConfig env a d r.revision (tsOf r) fs).files := ih _
          _ = applySets (loopWrites env a d (r :: rest)) fs.files := by
              simp [loopWrites, h, applySets_cons, hf]
    | err e =>
      have hf : (downloadConfig env a d r.revision (tsOf r) fs).files = fs.files := by
        rw [downloadConfig_files env a d r.revision (tsOf r) fs, h]
      simp [downloadLoop, loopWrites, h, ih, hf]
    | raised => simp [downloadLoop, loopWrites, h, applySets]

/-- Whether the download loop raises. -/
theorem downloadLoop_raised (env : Env) (a d : String) :
    ∀ (revs : List RevEntry) (fs : FS),
    (downloadLoop env a d revs fs).2.2 = loopRaises env a d revs := by
  intro revs
  induction revs with
  | nil => intro fs; rfl
  | cons r rest ih =>
    intro fs
    cases h : env.checkout a d r.revision with
    | ok v => simp [downloadLoop, loopRaises, h, ih]
    | err e => simp [downloadLoop, loopRaises, h, ih]
    | raised => simp [downloadLoop, loopRaises, h]

/-- A device step on an already-aborted trace does nothing. -/
theorem runDevice_of_raised (env : Env) (a : String) (t : RunTrace) (d : String)
    (h : t.raised = true) : runDevice env a t d = t := by
  simp [runDevice, h]

/-- A device step on a live trace appends exactly the device
contribution. -/
theorem runDevice_char (env : Env) (a : String) (t : RunTrace) (d : String)
    (h : t.raised = false) :
    (runDevice env a t d).visited = t.visited ++ (deviceContrib env a d).visited ∧
    (runDevice env a t d).fetches = t.fetches ++ (deviceContrib env a d).fetches ∧
    (runDevice env a t d).fs.files =
      applySets (deviceContrib env a d).writes t.fs.files ∧
    (runDevice env a t d).raised = (deviceContrib env a d).raised := by
  cases hrev : env.revinfo a d with
  | raised => simp [runDevice, h, hrev, deviceContrib, applySets]
  | ok l =>
    refine ⟨?_, ?_, ?_, ?_⟩ <;>
      simp [runDevice, h, hrev, deviceContrib, deviceFetches, deviceWriteList,
        deviceRevs, downloadLoop_fetches, downloadLoop_files, downloadLoop_raised]
  | err e =>
    refine ⟨?_, ?_, ?_, ?_⟩ <;>
      simp [runDevice, h, hrev, deviceContrib, deviceFetches, deviceWriteList,
        deviceRevs, downloadLoop_fetches, downloadLoop_files, downloadLoop_raised]

/-- The device loop on an already-aborted trace does nothing. -/
theorem foldl_runDevice_of_raised (env : Env) (a : String) :
    ∀ (ds : List String) (t : RunTrace), t.raised = true →
    ds.foldl (runDevice env a) t = t := by
  intro ds
  induction ds with
  | nil => intro t _; rfl
  | cons d ds ih =>
    intro t h
    rw [List.foldl_cons, runDevice_of_raised env a t d h]
    exact ih t h

/-- The device loop on a live trace appends exactly the sequenced device
contributions. -/
theorem foldl_runDevice_char (env : Env) (a : String) :
    ∀ (ds : List String) (t : RunTrace), t.raised = false →
    (ds.foldl (runDevice env a) t).visited =
      t.visited ++ (devicesContrib env a ds).visited ∧
    (ds.foldl (runDevice env a) t).fetches =
      t.fetches ++ (devicesContrib env a ds).fetches ∧
    (ds.foldl (runDevice env a) t).fs.files =
      applySets (devicesContrib env a ds).writes t.fs.files ∧
    (ds.foldl (runDevice env a) t).raised = (devicesContrib env a ds).raised := by
  intro ds
  induction ds with
  | nil => intro t h; simp [devicesContrib, applySets, h]
  | cons d ds ih =>
    intro t h
    rw [List.foldl_cons]
    obtain ⟨v1, f1, w1, r1⟩ := runDevice_char env a t d h
    by_cases hr : (deviceContrib env a d).raised = true
    · have habort : (runDevice env a t d).raised = true := by rw [r1, hr]
      rw [foldl_runDevice_of_raised env a ds _ habort]
      refine ⟨?_, ?_, ?_, ?_⟩ <;>
        simp [devicesContrib, seqContrib, hr, v1, f1, w1, r1]
    · rw [Bool.not_eq_true] at hr
      have hlive : (runDevice env a t d).raised = false := by rw [r1, hr]
      obtain ⟨v2, f2, w2, r2⟩ := ih (runDevice env a t d) hlive
      refine ⟨?_, ?_, ?_, ?_⟩
      · rw [v2, v1]; simp [devicesContrib, seqContrib, hr]
      · rw [f2, f1]; simp [devicesContrib, seqContrib, hr]
      · rw [w2, w1]; simp [devicesContrib, seqContrib, hr, applySets_append]
      · rw [r2]; simp [devicesContrib, seqContrib, hr]

/-- An ADOM step on an already-aborted trace does nothing. -/
theorem runAdom_of_raised (env : Env) (t : RunTrace) (a : String)
    (h : t.raised = true) : runAdom env t a = t := by
  simp [runAdom, h]

/-- An ADOM step on a live trace appends exactly the ADOM contribution. -/
theorem runAdom_char (env : Env) (t : RunTrace) (a : String)
    (h : t.raised = false) :
    (runAdom env t a).visited = t.visited ++ (adomContrib env a).visited ∧
    (runAdom env t a).fetches = t.fetches ++ (adomContrib env a).fetches ∧
    (runAdom env t a).fs.files = applySets (adomContrib env a).writes t.fs.files ∧
    (runAdom env t a).raised = (adomContrib env a).raised := by
  cases hdev : env.devices a with
  | raised => simp [runAdom, h, hdev, adomContrib, applySets]
  | ok l =>
    have hf := foldl_runDevice_char env a (getDevices env a) t h
    simpa [runAdom, h, hdev, adomContrib] using hf
  | err e =>
    have hf := foldl_runDevice_char env a (getDevices env a) t h
    simpa [runAdom, h, hdev, adomContrib] using hf

/-- The ADOM loop on an already-aborted trace does nothing. -/
theorem foldl_runAdom_of_raised (env : Env) :
    ∀ (as : List String) (t : RunTrace), t.raised = true →
    as.foldl (runAdom env) t = t := by
  intro as
  induction as with
  | nil => intro t _; rfl
  | cons a as ih =>
    intro t h
    rw [List.foldl_cons, runAdom_of_raised env t a h]
    exact ih t h

/-- The ADOM loop on a live trace appends exactly the sequenced ADOM
contributions. -/
theorem foldl_runAdom_char (env : Env) :
    ∀ (as : List String) (t : RunTrace), t.raised = false →
    (as.foldl (runAdom env) t).visited = t.visited ++ (adomsContrib env as).visited ∧
    (as.foldl (runAdom env) t).fetches = t.fetches ++ (adomsContrib env as).fetches ∧
    (as.foldl (runAdom env) t).fs.files =
      applySets (adomsContrib env as).writes t.fs.files ∧
    (as.foldl (runAdom env) t).raised = (adomsContrib env as).raised := by
  intro as
  induction as with
  | nil => intro t h; simp [adomsContrib, applySets, h]
  | cons a as ih =>
    intro t h
    rw [List.foldl_cons]
    obtain ⟨v1, f1, w1, r1⟩ := runAdom_char env t a h
    by_cases hr : (adomContrib env a).raised = true
    · have habort : (runAdom env t a).raised = true := by rw [r1, hr]
      rw [foldl_runAdom_of_raised env as _ habort]
      refine ⟨?_, ?_, ?_, ?_⟩ <;>
        simp [adomsContrib, seqContrib, hr, v1, f1, w1, r1]
    · rw [Bool.not_eq_true] at hr
      have hlive : (runAdom env t a).raised = false := by rw [r1, hr]
      obtain ⟨v2, f2, w2, r2⟩ := ih (runAdom env t a) hlive
      refine ⟨?_, ?_, ?_, ?_⟩
      · rw [v2, v1]; simp [adomsContrib, seqContrib, hr]
      · rw [f2, f1]; simp [adomsContrib, seqContrib, hr]
      · rw [w2, w1]; simp [adomsContrib, seqContrib, hr, applySets_append]
      · rw [r2]; simp [adomsContrib, seqContrib, hr]

/-- The walk of `main`: the visited pairs in closed form, truncated at the
first raising call. -/
theorem runMain_visited (env : Env) (fs0 : FS) :
    (runMain env fs0).visited = mainVisited env := by
  unfold runMain mainVisited mainContrib
  cases h : env.adoms with
  | raised => rfl
  | ok l => exact (foldl_runAdom_char env (getAdoms env) ⟨[], [], [], fs0, false⟩ rfl).1
  | err e => exact (foldl_runAdom_char env (getAdoms env) ⟨[], [], [], fs0, false⟩ rfl).1

/-- The checkout requests of a run do not depend on the starting
filesystem. -/
theorem runMain_fetches (env : Env) (fs0 : FS) :
    (runMain env fs0).fetches = (mainContrib env).fetches := by
  unfold runMain mainContrib
  cases h : env.adoms with
  | raised => rfl
  | ok l =>
    exact (foldl_runAdom_char env (getAdoms env) ⟨[], [], [], fs0, false⟩ rfl).2.1
  | err e =>
    exact (foldl_runAdom_char env (getAdoms env) ⟨[], [], [], fs0, false⟩ rfl).2.1

/-- The final file table is the write sequence of the run applied to the
starting file table; the write sequence does not depend on the starting
filesystem. -/
theorem runMain_files (env : Env) (fs0 : FS) :
    (runMain env fs0).fs.files = applySets (mainContrib env).writes fs0.files := by
  unfold runMain mainContrib
  cases h : env.adoms with
  | raised => simp [applySets]
  | ok l =>
    exact (foldl_runAdom_char env (getAdoms env) ⟨[], [], [], fs0, false⟩ rfl).2.2.1
  | err e =>
    exact (foldl_runAdom_char env (getAdoms env) ⟨[], [], [], fs0, false⟩ rfl).2.2.1

/-- Whether a run aborts is determined by the controller alone. -/
theorem runMain_raised (env : Env) (fs0 : FS) :
    (runMain env fs0).raised = (mainContrib env).raised := by
  unfold runMain mainContrib
  cases h : env.adoms with
  | raised => rfl
  | ok l =>
    exact (foldl_runAdom_char env (getAdoms env) ⟨[], [], [], fs0, false⟩ rfl).2.2.2
  | err e =>
    exact (foldl_runAdom_char env (getAdoms env) ⟨[], [], [], fs0, false⟩ rfl).2.2.2

/-! ## Congruence of contributions across controllers -/

/-- The requests of the download loop depend only on the checkout
oracle. -/
theorem loopFetches_congr (env envf : Env) (a d : String)
    (h : envf.checkout = env.checkout) :
    ∀ revs, loopFetches envf a d revs = loopFetches env a d revs := by
  intro revs
  induction revs with
  | nil => rfl
  | cons r rest ih => simp only [loopFetches, h, ih]

/-- The writes of the download loop depend only on the checkout oracle. -/
theorem loopWrites_congr (env envf : Env) (a d : String)
    (h : envf.checkout = env.checkout) :
    ∀ revs, loopWrites envf a d revs = loopWrites env a d revs := by
  intro revs
  induction revs with
  | nil => rfl
  | cons r rest ih => simp only [loopWrites, h, ih]

/-- Whether the download loop raises depends only on the checkout
oracle. -/
theorem loopRaises_congr (env envf : Env) (a d : String)
    (h : envf.checkout = env.checkout) :
    ∀ revs, loopRaises envf a d revs = loopRaises env a d revs := by
  intro revs
  induction revs with
  | nil => rfl
  | cons r rest ih => simp only [loopRaises, h, ih]

/-- The filtered revisions of a device depend only on its own listing. -/
theorem deviceRevs_congr (env envf : Env) (a d : String)
    (hrv : envf.revinfo a d = env.revinfo a d) :
    deviceRevs envf a d = deviceRevs env a d := by
  simp [deviceRevs, getConfigRevisions, hrv]

/-- A device contribution depends only on its own listing and the
checkout oracle. -/
theorem deviceContrib_congr (env envf : Env) (a d : String)
    (hrv : envf.revinfo a d = env.revinfo a d)
    (hchk : envf.checkout = env.checkout) :
    deviceContrib envf a d = deviceContrib env a d := by
  have hrevs := deviceRevs_congr env envf a d hrv
  unfold deviceContrib
  rw [hrv]
  cases env.revinfo a d with
  | raised => rfl
  | ok l =>
    simp [deviceFetches, deviceWriteList, hrevs,
      loopFetches_congr env envf a d hchk, loopWrites_congr env envf a d hchk,
      loopRaises_congr env envf a d hchk]
  | err e =>
    simp [deviceFetches, deviceWriteList, hrevs,
      loopFetches_congr env envf a d hchk, loopWrites_congr env envf a d hchk,
      loopRaises_congr env envf a d hchk]

/-- Device-list contributions have the same visited pairs and abort
behaviour whenever each device does. -/
theorem devicesContrib_congr (env envf : Env) (a : String)
    (h : ∀ d, (deviceContrib envf a d).visited = (deviceContrib env a d).visited ∧
      (deviceContrib envf a d).raised = (deviceContrib env a d).raised) :
    ∀ ds, (devicesContrib envf a ds).visited = (devicesContrib env a ds).visited ∧
      (devicesContrib envf a ds).raised = (devicesContrib env a ds).raised := by
  intro ds
  induction ds with
  | nil => exact ⟨rfl, rfl⟩
  | cons d ds ih =>
    obtain ⟨hv, hr⟩ := h d
    obtain ⟨iv, ir⟩ := ih
    by_cases hb : (deviceContrib env a d).raised = true
    · constructor <;> simp [devicesContrib, seqContrib, hb, hv, hr]
    · rw [Bool.not_eq_true] at hb
      constructor <;> simp [devicesContrib, seqContrib, hb, hv, hr, iv, ir]

/-- An ADOM contribution has the same visited pairs and abort behaviour
whenever its device listing and each device do. -/
theorem adomContrib_congr (env envf : Env) (a : String)
    (hdev : envf.devices = env.devices)
    (h : ∀ d, (deviceContrib envf a d).visited = (deviceContrib env a d).visited ∧
      (deviceContrib envf a d).raised = (deviceContrib env a d).raised) :
    (adomContrib envf a).visited = (adomContrib env a).visited ∧
    (adomContrib envf a).raised = (adomContrib env a).raised := by
  have hg : getDevices envf a = getDevices env a := by simp [getDevices, hdev]
  unfold adomContrib
  rw [hdev, hg]
  cases env.devices a with
  | raised => exact ⟨rfl, rfl⟩
  | ok l => exact devicesContrib_congr env envf a h (getDevices env a)
  | err e => exact devicesContrib_congr env envf a h (getDevices env a)

/-- ADOM-list contributions have the same visited pairs and abort
behaviour whenever each ADOM does. -/
theorem adomsContrib_congr (env envf : Env)
    (hdev : envf.devices = env.devices)
    (h : ∀ a d, (deviceContrib envf a d).visited = (deviceContrib env a d).visited ∧
      (deviceContrib envf a d).raised = (deviceContrib env a d).raised) :
    ∀ as, (adomsContrib envf as).visited = (adomsContrib env as).visited ∧
      (adomsContrib envf as).raised = (adomsContrib env as).raised := by
  intro as
  induction as with
  | nil => exact ⟨rfl, rfl⟩
  | cons a as ih =>
    obtain ⟨hv, hr⟩ := adomContrib_congr env envf a hdev (h a)
    obtain ⟨iv, ir⟩ := ih
    by_cases hb : (adomContrib env a).raised = true
    · constructor <;> simp [adomsContrib, seqContrib, hb, hv, hr]
    · rw [Bool.not_eq_true] at hb
      constructor <;> simp [adomsContrib, seqContrib, hb, hv, hr, iv, ir]

/-- The walk visits the same pairs under two controllers whose device
contributions agree on visited pairs and abort behaviour. -/
theorem mainVisited_congr (env envf : Env)
    (hadoms : envf.adoms = env.adoms) (hdev : envf.devices = env.devices)
    (h : ∀ a d, (deviceContrib envf a d).visited = (deviceContrib env a d).visited ∧
      (deviceContrib envf a d).raised = (deviceContrib env a d).raised) :
    mainVisited envf = mainVisited env := by
  have hg : getAdoms envf = getAdoms env := by simp [getAdoms, hadoms]
  unfold mainVisited mainContrib
  rw [hadoms, hg]
  cases env.adoms with
  | raised => rfl
  | ok l => exact (adomsContrib_congr env envf hdev h (getAdoms env)).1
  | err e => exact (adomsContrib_congr env envf hdev h (getAdoms env)).1

/-! ## The claims -/

/-- Claim C1, counterexample: after a first full run the artifact for
(rootA, fgt1, 2025-03-05 00:00:00) is stored, yet a second run over the
same stored state issues the checkout request for that same revision
again — the code never consults existing artifacts before fetching. -/
theorem second_run_refetch_counterexample :
    (runMain envOne FS.empty).fs.lookupFile
      (filePath "rootA" "fgt1" "2025-03-05_00-00-00") = some "cfg-content" ∧
    (runMain envOne (runMain envOne FS.empty).fs).fetches = [("rootA", "fgt1", 1)] :=
  ⟨by decide, by decide⟩

/-- Claim C1, amended: running the pipeline twice against the same
controller produces byte-identical stored artifact content for every key,
but the second run re-fetches every qualifying revision — the checkout
requests do not depend on what is already stored (there is no existence
check before downloading). -/
theorem second_run_identical_but_refetches (env : Env) (fs : FS) (p : String) :
    (runMain env (runMain env fs).fs).fetches = (runMain env fs).fetches ∧
    (runMain env (runMain env fs).fs).fs.lookupFile p =
      (runMain env fs).fs.lookupFile p := by
  constructor
  · rw [runMain_fetches, runMain_fetches]
  · unfold FS.lookupFile
    simp only [runMain_files, lookupEntry_applySets]
    cases hW : findLastW (mainContrib env).writes p <;> simp [hW]

/-- Claim C2: a revision whose parsed `"instime"` is strictly earlier
than the configured cutoff is never in the filtered list that
`get_config_revisions` returns for download, and every revision it does
return parses to a time at or after the cutoff. -/
theorem selector_never_proposes_precutoff (env : Env) (a d : String) :
    (∀ r s t, r.instime = some s → parseDateTime s = some t →
      t.toKey < adomFilterDatetime.toKey → r ∉ (getConfigRevisions env a d).1) ∧
    ∀ r ∈ (getConfigRevisions env a d).1, ∃ s t, r.instime = some s ∧
      parseDateTime s = some t ∧ adomFilterDatetime.toKey ≤ t.toKey := by
  constructor
  · intro r s t hs hp hlt hmem
    obtain ⟨s', t', hs', hp', hk'⟩ := mem_getConfigRevisions_fst hmem
    rw [hs] at hs'
    injection hs' with hss
    subst hss
    rw [hp] at hp'
    injection hp' with htt
    subst htt
    exact absurd hk' (Nat.not_le.mpr hlt)
  · intro r hmem
    exact mem_getConfigRevisions_fst hmem

/-- Claim C2, witness: the revision installed 2025-03-01, two days before
the cutoff, is excluded from the filtered list. -/
theorem selector_never_proposes_precutoff_witness :
    revBeforeCutoff.instime = some "2025-03-01 00:00:00" ∧
    parseDateTime "2025-03-01 00:00:00" = some ⟨2025, 3, 1, 0, 0, 0⟩ ∧
    (⟨2025, 3, 1, 0, 0, 0⟩ : DateTime).toKey < adomFilterDatetime.toKey ∧
    revBeforeCutoff ∉ (getConfigRevisions envMixed "A" "fgt").1 :=
  ⟨rfl, by decide, by decide,
    (selector_never_proposes_precutoff envMixed "A" "fgt").1 revBeforeCutoff
      "2025-03-01 00:00:00" ⟨2025, 3, 1, 0, 0, 0⟩ rfl (by decide) (by decide)⟩

/-- Claim C3, counterexample: the state reachable by a crash between
`open(file_path, "w")` and the completed write has the FINAL artifact
path present with truncated (empty) content, which differs from the
intended content — a partial artifact is visible at the final path. -/
theorem atomic_write_counterexample :
    downloadMidWriteState envOne "rootA" "fgt1" 1 "2025-03-05_00-00-00" FS.empty =
      some ((FS.empty.addDir (adomDir "rootA")).setFile
        (filePath "rootA" "fgt1" "2025-03-05_00-00-00") "") ∧
    ((FS.empty.addDir (adomDir "rootA")).setFile
        (filePath "rootA" "fgt1" "2025-03-05_00-00-00") "").lookupFile
      (filePath "rootA" "fgt1" "2025-03-05_00-00-00") = some "" ∧
    (downloadConfig envOne "rootA" "fgt1" 1 "2025-03-05_00-00-00" FS.empty).lookupFile
      (filePath "rootA" "fgt1" "2025-03-05_00-00-00") = some "cfg-content" :=
  ⟨by decide, by decide, by decide⟩

/-- Claim C3, amended: `download_config` writes directly to the final
artifact path with no temporary file and no rename, so whenever the
checkout succeeds, the mid-write crash state has the final path visible
with truncated content while the completed write holds the full
content. -/
theorem direct_write_partial_artifact_visible (env : Env) (a d : String)
    (rid : Nat) (ts : String) (fs : FS) (c : String)
    (h : env.checkout a d rid = .ok (some c)) :
    ∃ mid, downloadMidWriteState env a d rid ts fs = some mid ∧
      mid.lookupFile (filePath a d ts) = some "" ∧
      (downloadConfig env a d rid ts fs).lookupFile (filePath a d ts) = some c := by
  refine ⟨(fs.addDir (adomDir a)).setFile (filePath a d ts) "", ?_, ?_, ?_⟩
  · simp [downloadMidWriteState, h]
  · simp [FS.lookupFile, FS.setFile, lookupEntry_setEntry]
  · simp [downloadConfig, h, FS.lookupFile, FS.setFile, lookupEntry_setEntry]

/-- Claim C3, amended, witness at a concrete download. -/
theorem direct_write_partial_artifact_visible_witness :
    ∃ mid, downloadMidWriteState envOne "rootA" "fgt1" 1 "ts" FS.empty = some mid ∧
      mid.lookupFile (filePath "rootA" "fgt1" "ts") = some "" ∧
      (downloadConfig envOne "rootA" "fgt1" 1 "ts" FS.empty).lookupFile
        (filePath "rootA" "fgt1" "ts") = some "cfg-content" :=
  direct_write_partial_artifact_visible envOne "rootA" "fgt1" 1 "ts" FS.empty
    "cfg-content" rfl

/-- Claim C4, counterexample: with a first attempt that fails at the
network level and a second attempt that would succeed, `send_request`
raises an uncaught exception — the failure is neither retried nor
surfaced to the caller as a per-node error value — and with a first
attempt whose body fails to decode it returns `None` without a second
attempt; the retrying client the spec describes would return the
successful result in both cases. -/
theorem retry_counterexample :
    sendRequest [RawResp.raised, RawResp.jsonOk (some 7)] = CallOutcome.raised ∧
    sendRequest [RawResp.badJson, RawResp.jsonOk (some 7)] =
      CallOutcome.returned none ∧
    sendRequestSpecRetry [RawResp.raised, RawResp.jsonOk (some 7)] = some 7 ∧
    sendRequestSpecRetry [RawResp.badJson, RawResp.jsonOk (some 7)] = some 7 :=
  ⟨rfl, rfl, rfl, rfl⟩

/-- Claim C4, amended: `send_request` issues exactly one attempt — its
outcome is determined by the first response alone, with no retry and no
backoff.  A body that fails to decode, or lacks a `"result"` key, returns
`None` to the caller, which treats it as a per-node failure; a
network-level transport failure instead raises an uncaught exception
(`requests.post` is outside the `try`), which aborts the entire run. -/
theorem send_request_single_attempt {α : Type} (r : RawResp α)
    (rest : List (RawResp α)) :
    sendRequest (r :: rest) = sendRequest [r] ∧
    sendRequest (RawResp.badJson :: rest) = CallOutcome.returned none ∧
    sendRequest (RawResp.raised :: rest) = CallOutcome.raised :=
  ⟨rfl, rfl, rfl⟩

/-- Claim C5, counterexample: with an authentication failure on the
device listing of ADOM A, the run still processes ADOM B (fetching and
storing its revision) and the process exits 0 — it neither aborts nor
exits non-zero. -/
theorem auth_failure_counterexample :
    envAuthFail.devices "A" = .err .auth ∧
    (runMain envAuthFail FS.empty).fetches = [("B", "fgt", 1)] ∧
    (runMain envAuthFail FS.empty).fs.lookupFile
      (filePath "B" "fgt" "2025-03-05_00-00-00") = some "cfg" ∧
    runExitCode envAuthFail = 0 :=
  ⟨by decide, by decide, by decide, rfl⟩

/-- Claim C5, amended: an authentication failure is absorbed like any
other failed call — the failing node yields an empty list, the walk
still visits every (adom, device) pair of the remaining hierarchy, and
the process exit code is 0. -/
theorem auth_failure_absorbed_run_continues (env : Env) (fs : FS) (a0 : String)
    (h : env.devices a0 = .err .auth) :
    getDevices env a0 = [] ∧
    (runMain env fs).visited = mainVisited env ∧
    runExitCode env = 0 := by
  refine ⟨?_, runMain_visited env fs, rfl⟩
  simp [getDevices, h]

/-- Claim C5, amended, witness at the concrete auth-failing controller. -/
theorem auth_failure_absorbed_run_continues_witness :
    getDevices envAuthFail "A" = [] ∧
    (runMain envAuthFail FS.empty).visited = mainVisited envAuthFail ∧
    runExitCode envAuthFail = 0 :=
  auth_failure_absorbed_run_continues envAuthFail FS.empty "A" (by decide)

/-- Claim C6, counterexample: a network-level transport failure
(`requests.post` raising) on the revision listing of device d1 of ADOM A
aborts the entire run with an uncaught exception: no device is visited,
nothing is fetched, nothing is written — the sibling device d2 and both
devices of ADOM B are not processed, although the same walk without the
failure processes all four. -/
theorem listing_raise_aborts_counterexample :
    (runMain envRaiseListing FS.empty).raised = true ∧
    (runMain envRaiseListing FS.empty).visited = [] ∧
    (runMain envRaiseListing FS.empty).fetches = [] ∧
    (runMain envRaiseListing FS.empty).fs.files = [] ∧
    (runMain envTwoByTwo FS.empty).visited =
      [("A", "d1"), ("A", "d2"), ("B", "d1"), ("B", "d2")] :=
  ⟨by decide, by decide, by decide, by decide, by decide⟩

/-- Claim C6, amended: a transport failure that arrives as a response
(here a received response with no usable data) on the revision listing of
one device is absorbed: the device is visited but contributes no
fetches and no writes and does not abort, every other device contributes
exactly as in the failure-free run, and the walk visits the same
(adom, device) pairs.  A network-level transport failure on the same
call instead raises: its device contribution is aborting, and nothing
sequenced after it contributes anything. -/
theorem listing_failure_absorbed_vs_raised (env envf envr : Env)
    (a0 d0 : String) (fs : FS) (l0 : List RevEntry)
    (hadoms : envf.adoms = env.adoms)
    (hdev : envf.devices = env.devices)
    (hchk : envf.checkout = env.checkout)
    (hrev : ∀ a d, ¬(a = a0 ∧ d = d0) → envf.revinfo a d = env.revinfo a d)
    (hfail : envf.revinfo a0 d0 = .err .transient)
    (hok : env.revinfo a0 d0 = .ok l0)
    (hnl : loopRaises env a0 d0 (deviceRevs env a0 d0) = false)
    (hraise : envr.revinfo a0 d0 = .raised) :
    deviceContrib envf a0 d0 = ⟨[(a0, d0)], [], [], [], false⟩ ∧
    (∀ a d, ¬(a = a0 ∧ d = d0) → deviceContrib envf a d = deviceContrib env a d) ∧
    (runMain envf fs).visited = (runMain env fs).visited ∧
    (deviceContrib envr a0 d0).raised = true ∧
    ∀ c, seqContrib (deviceContrib envr a0 d0) c = deviceContrib envr a0 d0 := by
  have hother : ∀ a d, ¬(a = a0 ∧ d = d0) →
      deviceContrib envf a d = deviceContrib env a d :=
    fun a d h => deviceContrib_congr env envf a d (hrev a d h) hchk
  have hc1 : deviceContrib envf a0 d0 = ⟨[(a0, d0)], [], [], [], false⟩ := by
    simp [deviceContrib, hfail, deviceFetches, deviceWriteList, deviceRevs,
      getConfigRevisions, loopFetches, loopWrites, loopRaises]
  refine ⟨hc1, hother, ?_, ?_, ?_⟩
  · rw [runMain_visited, runMain_visited]
    apply mainVisited_congr env envf hadoms hdev
    intro a d
    by_cases hh : a = a0 ∧ d = d0
    · obtain ⟨ha, hd⟩ := hh
      subst ha
      subst hd
      rw [hc1]
      constructor
      · simp [deviceContrib, hok]
      · simp [deviceContrib, hok, hnl]
    · rw [hother a d hh]
      exact ⟨rfl, rfl⟩
  · simp [deviceContrib, hraise]
  · intro c
    simp [seqContrib, deviceContrib, hraise]

/-- Claim C6, amended, witness: the concrete two-ADOM, two-device walk,
with a response-level failure and a raising failure at (A, d1). -/
theorem listing_failure_absorbed_vs_raised_witness :
    deviceContrib envTwoByTwoFail "A" "d1" = ⟨[("A", "d1")], [], [], [], false⟩ ∧
    (∀ a d, ¬(a = "A" ∧ d = "d1") →
      deviceContrib envTwoByTwoFail a d = deviceContrib envTwoByTwo a d) ∧
    (runMain envTwoByTwoFail FS.empty).visited =
      (runMain envTwoByTwo FS.empty).visited ∧
    (deviceContrib envRaiseListing "A" "d1").raised = true ∧
    ∀ c, seqContrib (deviceContrib envRaiseListing "A" "d1") c =
      deviceContrib envRaiseListing "A" "d1" := by
  refine listing_failure_absorbed_vs_raised envTwoByTwo envTwoByTwoFail
    envRaiseListing "A" "d1" FS.empty [revAfterCutoff] rfl rfl rfl ?_ ?_ rfl
    (by decide) ?_
  · intro a d h
    show (if a = "A" ∧ d = "d1" then RpcResult.err RpcError.transient
      else envTwoByTwo.revinfo a d) = envTwoByTwo.revinfo a d
    rw [if_neg h]
  · show (if "A" = "A" ∧ "d1" = "d1" then RpcResult.err RpcError.transient
      else envTwoByTwo.revinfo "A" "d1") = RpcResult.err RpcError.transient
    rw [if_pos ⟨rfl, rfl⟩]
  · show (if "A" = "A" ∧ "d1" = "d1" then RpcResult.raised
      else envTwoByTwo.revinfo "A" "d1") = RpcResult.raised
    rw [if_pos ⟨rfl, rfl⟩]

/-- Claim C7: a revision whose `"instime"` fails to parse is excluded
from the filtered list, is recorded in the parse-failure log, and every
valid revision of the same device at or after the cutoff is still
returned; the filtering function is total, so the run never crashes on a
malformed timestamp. -/
theorem unparsable_instime_skipped_and_logged (env : Env) (a d : String)
    (l : List RevEntry) (r : RevEntry) (s : String)
    (hl : env.revinfo a d = .ok l) (hmem : r ∈ l)
    (hs : r.instime = some s) (hp : parseDateTime s = none) :
    r ∉ (getConfigRevisions env a d).1 ∧
    r ∈ (getConfigRevisions env a d).2 ∧
    ∀ r2 s2 t2, r2 ∈ l → r2.instime = some s2 → parseDateTime s2 = some t2 →
      adomFilterDatetime.toKey ≤ t2.toKey → r2 ∈ (getConfigRevisions env a d).1 := by
  have hg : getConfigRevisions env a d = filterRevinfo l := by
    simp [getConfigRevisions, hl]
  refine ⟨?_, ?_, ?_⟩
  · rw [hg]
    intro hin
    obtain ⟨s', t', hs', hp', _⟩ := mem_filterRevinfo_fst hin
    rw [hs] at hs'
    injection hs' with hss
    subst hss
    rw [hp] at hp'
    exact Option.noConfusion hp'
  · rw [hg]
    exact failed_mem_filterRevinfo hmem hs hp
  · intro r2 s2 t2 hmem2 hs2 hp2 hk2
    rw [hg]
    exact kept_mem_filterRevinfo hmem2 hs2 hp2 hk2

/-- Claim C7, witness: the `garbage` timestamp is logged and excluded,
while the valid post-cutoff revision of the same device is kept. -/
theorem unparsable_instime_skipped_and_logged_witness :
    revBadTime ∈ (getConfigRevisions envMixed "A" "fgt").2 ∧
    revBadTime ∉ (getConfigRevisions envMixed "A" "fgt").1 ∧
    revAfterCutoff ∈ (getConfigRevisions envMixed "A" "fgt").1 := by
  obtain ⟨h1, h2, h3⟩ := unparsable_instime_skipped_and_logged envMixed "A" "fgt"
    [revBadTime, revBeforeCutoff, revAfterCutoff, revNoTime] revBadTime "garbage"
    rfl (by decide) rfl (by decide)
  exact ⟨h2, h1, h3 revAfterCutoff "2025-03-05 00:00:00" ⟨2025, 3, 5, 0, 0, 0⟩
    (by decide) rfl (by decide) (by decide)⟩

/-- Claim C8, counterexample: a device whose `revinfo` lists revision 7
twice triggers two checkout requests for (A, fgt, 7) in one run — the
duplicates are not de-duplicated — though both writes target the same
path, so one artifact file remains. -/
theorem duplicate_refetch_counterexample :
    (runMain envDup FS.empty).fetches = [("A", "fgt", 7), ("A", "fgt", 7)] ∧
    (runMain envDup FS.empty).fs.files =
      [(filePath "A" "fgt" "2025-03-05_10-00-00", "dup-cfg")] :=
  ⟨by decide, by decide⟩

/-- Claim C8, amended: duplicate revision entries are not de-duplicated:
each occurrence of a qualifying duplicate issues its own checkout request
and its own write; the writes go to the same artifact path, so at most
one file remains, but the revision is downloaded once per occurrence. -/
theorem duplicates_not_deduplicated (env : Env) (a d : String) (r : RevEntry)
    (c s : String) (t : DateTime)
    (hl : env.revinfo a d = .ok [r, r])
    (hc : env.checkout a d r.revision = .ok (some c))
    (hs : r.instime = some s) (hp : parseDateTime s = some t)
    (hk : adomFilterDatetime.toKey ≤ t.toKey) :
    deviceFetches env a d = [(a, d, r.revision), (a, d, r.revision)] ∧
    deviceWriteList env a d =
      [(filePath a d (tsOf r), c), (filePath a d (tsOf r), c)] := by
  have h1 : filterRevinfo [r] = ([r], []) := by
    rw [filterRevinfo_cons_keep [] hs hp hk]
    simp [filterRevinfo]
  have h2 : filterRevinfo [r, r] = ([r, r], []) := by
    rw [filterRevinfo_cons_keep [r] hs hp hk, h1]
  have hrevs : deviceRevs env a d = [r, r] := by
    simp [deviceRevs, getConfigRevisions, hl, h2]
  constructor
  · simp [deviceFetches, hrevs, loopFetches, hc]
  · simp [deviceWriteList, hrevs, loopWrites, hc]

/-- Claim C8, amended, witness at the concrete duplicated listing. -/
theorem duplicates_not_deduplicated_witness :
    deviceFetches envDup "A" "fgt" = [("A", "fgt", 7), ("A", "fgt", 7)] ∧
    deviceWriteList envDup "A" "fgt" =
      [(filePath "A" "fgt" (tsOf ⟨7, some "2025-03-05 10:00:00"⟩), "dup-cfg"),
       (filePath "A" "fgt" (tsOf ⟨7, some "2025-03-05 10:00:00"⟩), "dup-cfg")] :=
  duplicates_not_deduplicated envDup "A" "fgt" ⟨7, some "2025-03-05 10:00:00"⟩
    "dup-cfg" "2025-03-05 10:00:00" ⟨2025, 3, 5, 10, 0, 0⟩ rfl rfl rfl
    (by decide) (by decide)

/-- Claim C9: a revision entry with no `"instime"` key at all is dropped
silently by the listing step — it appears neither in the filtered list
returned for download nor in the parse-failure log. -/
theorem missing_instime_silently_dropped (env : Env) (a d : String)
    (l : List RevEntry) (r : RevEntry)
    (_hl : env.revinfo a d = .ok l) (hr : r.instime = none) :
    r ∉ (getConfigRevisions env a d).1 ∧ r ∉ (getConfigRevisions env a d).2 := by
  constructor
  · intro hin
    obtain ⟨s, _, hs, _, _⟩ := mem_getConfigRevisions_fst hin
    rw [hr] at hs
    exact Option.noConfusion hs
  · intro hin
    obtain ⟨s, hs, _⟩ := mem_getConfigRevisions_snd hin
    rw [hr] at hs
    exact Option.noConfusion hs

/-- Claim C9, witness: the keyless entry of the mixed listing is in
neither output. -/
theorem missing_instime_silently_dropped_witness :
    revNoTime ∉ (getConfigRevisions envMixed "A" "fgt").1 ∧
    revNoTime ∉ (getConfigRevisions envMixed "A" "fgt").2 :=
  missing_instime_silently_dropped envMixed "A" "fgt"
    [revBadTime, revBeforeCutoff, revAfterCutoff, revNoTime] revNoTime rfl rfl

/-- Claim C10: when the checkout result carries `"data"` without a
`"content"` key, `download_config` leaves the filesystem exactly as it
was — no directory is created and no file is written. -/
theorem missing_content_leaves_fs_unchanged (env : Env) (a d : String)
    (rid : Nat) (ts : String) (fs : FS)
    (h : env.checkout a d rid = .ok none) :
    downloadConfig env a d rid ts fs = fs := by
  simp [downloadConfig, h]

/-- Claim C10, witness: a concrete content-less checkout leaves the empty
filesystem empty. -/
theorem missing_content_leaves_fs_unchanged_witness :
    downloadConfig envNoContent "A" "fgt" 1 "ts" FS.empty = FS.empty :=
  missing_content_leaves_fs_unchanged envNoContent "A" "fgt" 1 "ts" FS.empty rfl

end FmgGetFgtRevisions
